import Mathlib

/-!
# Verification of the msc-bbs BBS04 group-signature implementation

The repository implements the Boneh-Boyen-Shacham 2004 short group signature
scheme over the BLS12-381 pairing curve (via the cloudflare circl library).
The circl groups G1, G2, GT are cyclic of the same prime order r, and the
scheme only uses the abstract group/pairing structure:

* scalars form the field Z_r, and circl's `Scalar.Inv` is Fermat inversion
  (exponentiation by r - 2, so that the inverse of zero is zero);
* G1, G2, GT are cyclic groups of order r with a non-degenerate bilinear
  pairing e : G1 x G2 -> GT and generators G1Generator, G2Generator;
* `ProdPair` computes the product of pairings raised to embedded scalars.

We shallowly embed the code over this structure: for a modulus `q` the three
groups are modelled as the additive group `ZMod q` (the group law `Add` of the
code becomes `+`, `ScalarMult`/`Exp` become scalar multiplication `s * p`,
`Neg` becomes negation, the generators become `1`), scalars are `ZMod q`, and
the pairing is `pair a b = a * b`, the canonical non-degenerate bilinear
pairing of cyclic groups of prime order written additively.  The real
instantiation is `q = r` (the BLS12-381 scalar-field order); all theorems are
proved for an arbitrary modulus (prime where field inversion is needed).

The byte-level primitives (SHA-256 in `HashToScalar`, the canonical point
serializations, and hash-to-curve `G1.Hash`) are opaque to the scheme; they
are modelled as an explicit oracle record `HashModel` passed to the functions
that the Go code lets call them, with byte strings modelled as `List Nat`.

Randomness (`utils.RandomScalar`, `crypto/rand`) is passed explicitly: every
random scalar the Go code samples is a field of an explicit randomness record.
`utils.RandomScalar` rejection-samples a uniform nonzero scalar, so theorems
about honest executions take the corresponding scalars nonzero as hypotheses.

Go results `(T, error)` are modelled by `GoResult`; a run-time panic (such as
`make` with a negative length) is modelled by the distinguished constructor
`GoResult.panic`.
-/

/-- The scalar field Z_r of the curve (circl `e.Scalar`). -/
abbrev Scalar (q : ℕ) : Type := ZMod q

/-- The group G1 (circl `e.G1`), written additively. -/
abbrev G1e (q : ℕ) : Type := ZMod q

/-- The group G2 (circl `e.G2`), written additively. -/
abbrev G2e (q : ℕ) : Type := ZMod q

/-- The target group GT (circl `e.Gt`), written additively:
the code's `Gt.Mul` is `+` and `Gt.Exp` is scalar multiplication. -/
abbrev GTe (q : ℕ) : Type := ZMod q

/-- circl `Scalar.Inv`: Fermat inversion by exponentiation with q - 2
(so the inverse of zero is zero, as in the library). -/
def scalarInv (q : ℕ) (s : Scalar q) : Scalar q := s ^ (q - 2)

/-- The pairing e : G1 x G2 -> GT (circl `e.Pair`): the canonical
non-degenerate bilinear pairing of cyclic groups of order q. -/
def pair (q : ℕ) (a : G1e q) (b : G2e q) : GTe q := a * b

/-- circl `e.ProdPair(P, Q, n)`: the product of the pairings `e(P i, Q i)`
raised to the scalars `n i` (a sum in the additive model of GT). -/
def prodPair (q : ℕ) (gs : List (G1e q)) (hs : List (G2e q))
    (ss : List (Scalar q)) : GTe q :=
  ((gs.zip (hs.zip ss)).map (fun t => t.2.2 * pair q t.1 t.2.1)).sum

/-- Go's `(value, error)` returns together with run-time panics. -/
inductive GoResult (α : Type) : Type
  | ok (val : α)
  | err (msg : String)
  | panic (msg : String)
deriving DecidableEq

/-- models.PublicKey: gpk = (g1, g2, h, u, v, w). -/
structure PublicKey (q : ℕ) : Type where
  G1 : G1e q
  G2 : G2e q
  H : G1e q
  U : G1e q
  V : G1e q
  W : G2e q
deriving DecidableEq

/-- models.SecretManagerKey: gmsk = (epsilon1, epsilon2). -/
structure SecretManagerKey (q : ℕ) : Type where
  Epsilon1 : Scalar q
  Epsilon2 : Scalar q
deriving DecidableEq

/-- models.Signature: (T1, T2, T3, c, s_alpha, s_beta, s_x, s_delta1, s_delta2). -/
structure Signature (q : ℕ) : Type where
  T1 : G1e q
  T2 : G1e q
  T3 : G1e q
  C : Scalar q
  SAlpha : Scalar q
  SBeta : Scalar q
  SX : Scalar q
  SDelta1 : Scalar q
  SDelta2 : Scalar q
deriving DecidableEq

/-- models.User: an SDH credential (A_i, x_i). -/
structure User (q : ℕ) : Type where
  A : G1e q
  X : Scalar q
deriving DecidableEq

/-- models.KeyGenResult. -/
structure KeyGenResult (q : ℕ) : Type where
  publicKey : PublicKey q
  secretManagerKey : SecretManagerKey q
  users : List (User q)
deriving DecidableEq

/-- The byte-level primitives the scheme treats as opaque: the canonical
serializations of utils.go, SHA-256-mod-r hashing (`utils.HashToScalar`),
and hash-to-G1 (`G1.Hash` with a domain separation tag).  Bytes are `List Nat`. -/
structure HashModel (q : ℕ) : Type where
  serializeString : String → List Nat
  serializeG1 : G1e q → List Nat
  serializeGt : GTe q → List Nat
  hashToScalar : List Nat → Scalar q
  hashG1 : List Nat → String → G1e q

namespace Utils

/-- The 48-byte buffer `make([]byte, 48)` filled by `rand.Read`
inside `utils.RandomG1Element`; the randomness is the function `f`. -/
def randBuf48 (f : Fin 48 → ℕ) : List Nat := (List.finRange 48).map f

/-- utils.RandomG1Element: hash 48 fresh random bytes to G1 with the fixed
domain separation tag.  The code applies the hash once and returns the
result; there is no identity check. -/
def RandomG1Element (q : ℕ) (hm : HashModel q) (randomBytes : Fin 48 → ℕ) : G1e q :=
  hm.hashG1 (randBuf48 randomBytes) "domain-separation-tag"

/-- The older draft `randomG1Element` of the main-package prototype
(src/unnamed/part_001): h := g1^scalar for a fresh random scalar, retrying
while h is the identity.  The recursion is modelled with an explicit stream
of sampled scalars; an exhausted stream gives `none`. -/
def randomG1ElementOld (q : ℕ) : List (Scalar q) → Option (G1e q)
  | [] => none
  | s :: rest =>
      let g1 : G1e q := 1
      let h : G1e q := s * g1
      if h = 0 then randomG1ElementOld q rest else some h

end Utils

namespace Keygen

/-- keygen.ComputeUAndV: u = h^(epsilon1⁻¹), v = h^(epsilon2⁻¹).
(The Go function also receives g1 and leaves it unused.) -/
def ComputeUAndV (q : ℕ) (g1 : G1e q) (h : G1e q) (epsilon1 epsilon2 : Scalar q) :
    G1e q × G1e q :=
  let invEpsilon1 := scalarInv q epsilon1
  let invEpsilon2 := scalarInv q epsilon2
  let u := invEpsilon1 * h
  let v := invEpsilon2 * h
  (u, v)

/-- keygen.ComputeW: w = g2^gamma. -/
def ComputeW (q : ℕ) (g2 : G2e q) (gamma : Scalar q) : G2e q :=
  gamma * g2

/-- keygen.ComputeAi: A_i = g1^((gamma + x_i)⁻¹).  There is no check for
gamma + x_i = 0; in that case the Fermat inverse of zero is zero and the
result is the identity element. -/
def ComputeAi (q : ℕ) (g1 : G1e q) (gamma xI : Scalar q) : G1e q :=
  let gammaPlusX := gamma + xI
  let gammaPlusXInv := scalarInv q gammaPlusX
  gammaPlusXInv * g1

/-- keygen.ComputeSDHTuples: `users := make([]models.User, n)` (which panics
for negative n), then for each i a fresh x_i := RandomScalar() and
A_i := ComputeAi(g1, gamma, x_i), written into slot i.  The x_i randomness
stream is the function `xs`.  The goroutine error channel only ever carries
RandomScalar failures, which the explicit-randomness model cannot produce. -/
def ComputeSDHTuples (q : ℕ) (n : ℤ) (g1 : G1e q) (gamma : Scalar q)
    (xs : ℕ → Scalar q) : GoResult (List (User q)) :=
  if n < 0 then GoResult.panic "makeslice: len out of range"
  else GoResult.ok
    ((List.range n.toNat).map (fun i => { A := ComputeAi q g1 gamma (xs i), X := xs i }))

/-- The randomness consumed by keygen.KeyGen: the 48 bytes hashed to h, the
scalars epsilon1, epsilon2, gamma, and the per-user stream of x_i.
`utils.RandomScalar` rejection-samples nonzero scalars; theorems state this
nonzero guarantee as hypotheses where they rely on it. -/
structure KeyGenRandomness (q : ℕ) : Type where
  hBytes : Fin 48 → ℕ
  epsilon1 : Scalar q
  epsilon2 : Scalar q
  gamma : Scalar q
  xs : ℕ → Scalar q

/-- keygen.KeyGen(n): generators, h := RandomG1Element(), u and v, w := g2^gamma,
the n SDH tuples, and the assembled result.  The trapdoor gamma is dropped. -/
def KeyGen (q : ℕ) (hm : HashModel q) (n : ℤ) (rnd : KeyGenRandomness q) :
    GoResult (KeyGenResult q) :=
  let g1 : G1e q := 1
  let g2 : G2e q := 1
  let h := Utils.RandomG1Element q hm rnd.hBytes
  let uv := ComputeUAndV q g1 h rnd.epsilon1 rnd.epsilon2
  let w := ComputeW q g2 rnd.gamma
  match ComputeSDHTuples q n g1 rnd.gamma rnd.xs with
  | GoResult.ok users =>
      GoResult.ok
        { publicKey := { G1 := g1, G2 := g2, H := h, U := uv.1, V := uv.2, W := w }
          secretManagerKey := { Epsilon1 := rnd.epsilon1, Epsilon2 := rnd.epsilon2 }
          users := users }
  | GoResult.err msg => GoResult.err msg
  | GoResult.panic msg => GoResult.panic msg

end Keygen

namespace Sign

/-- The random scalars consumed by sign.Sign: the blinding scalars alpha and
beta and the five proof nonces (all outputs of `utils.RandomScalar`). -/
structure SignRandomness (q : ℕ) : Type where
  alpha : Scalar q
  beta : Scalar q
  rAlpha : Scalar q
  rBeta : Scalar q
  rX : Scalar q
  rDelta1 : Scalar q
  rDelta2 : Scalar q

/-- sign.ComputeDeltas: delta1 = alpha * x_i, delta2 = beta * x_i. -/
def ComputeDeltas (q : ℕ) (alpha beta xI : Scalar q) : Scalar q × Scalar q :=
  (alpha * xI, beta * xI)

/-- sign.ComputeT3: T3 = A_i * h^(alpha + beta). -/
def ComputeT3 (q : ℕ) (alpha beta : Scalar q) (h aI : G1e q) : G1e q :=
  let alphaPlusBeta := alpha + beta
  let hAlphaBeta := alphaPlusBeta * h
  hAlphaBeta + aI

/-- sign.ComputeTValues: T1 = u^alpha, T2 = v^beta, T3 = A_i * h^(alpha + beta). -/
def ComputeTValues (q : ℕ) (alpha beta : Scalar q) (h u v aI : G1e q) :
    G1e q × G1e q × G1e q :=
  let T1 := alpha * u
  let T2 := beta * v
  let T3 := ComputeT3 q alpha beta h aI
  (T1, T2, T3)

/-- sign.ComputeR3: R3 = e(T3^r_x, g2) * e(h^(-(r_alpha+r_beta)), w)
* e(h^(-(r_delta1+r_delta2)), g2). -/
def ComputeR3 (q : ℕ) (T3 : G1e q) (g2 : G2e q) (h : G1e q) (w : G2e q)
    (rX rAlpha rBeta rDelta1 rDelta2 : Scalar q) : GTe q :=
  let t3rX := rX * T3
  let pair1Exp := pair q t3rX g2
  let rAlphaBeta := -(rAlpha + rBeta)
  let hRAlphaBeta := rAlphaBeta * h
  let pair2Exp := pair q hRAlphaBeta w
  let rDelta := -(rDelta1 + rDelta2)
  let hRDelta := rDelta * h
  let pair3Exp := pair q hRDelta g2
  pair1Exp + pair2Exp + pair3Exp

/-- sign.ComputeR4: R4 = T1^r_x * u^(-r_delta1). -/
def ComputeR4 (q : ℕ) (T1 u : G1e q) (rX rDelta1 : Scalar q) : G1e q :=
  let t1rX := rX * T1
  let minusRDelta1 := -rDelta1
  let uRDelta1 := minusRDelta1 * u
  t1rX + uRDelta1

/-- sign.ComputeR5: R5 = T2^r_x * v^(-r_delta2). -/
def ComputeR5 (q : ℕ) (T2 v : G1e q) (rX rDelta2 : Scalar q) : G1e q :=
  let t2rX := rX * T2
  let minusRDelta2 := -rDelta2
  let vRDelta2 := minusRDelta2 * v
  t2rX + vRDelta2

/-- sign.ComputeRValues: the five proof commitments R1..R5. -/
def ComputeRValues (q : ℕ) (rAlpha rBeta rX rDelta1 rDelta2 : Scalar q)
    (T1 T2 T3 h u v : G1e q) (w g2 : G2e q) :
    G1e q × G1e q × GTe q × G1e q × G1e q :=
  let R1 := rAlpha * u
  let R2 := rBeta * v
  let R3 := ComputeR3 q T3 g2 h w rX rAlpha rBeta rDelta1 rDelta2
  let R4 := ComputeR4 q T1 u rX rDelta1
  let R5 := ComputeR5 q T2 v rX rDelta2
  (R1, R2, R3, R4, R5)

/-- sign.ComputeSValues: s = r + c * secret for the five responses. -/
def ComputeSValues (q : ℕ) (alpha beta xI delta1 delta2 : Scalar q)
    (rAlpha rBeta rX rDelta1 rDelta2 c : Scalar q) :
    Scalar q × Scalar q × Scalar q × Scalar q × Scalar q :=
  let sAlpha := alpha * c + rAlpha
  let sBeta := beta * c + rBeta
  let sX := xI * c + rX
  let sDelta1 := delta1 * c + rDelta1
  let sDelta2 := delta2 * c + rDelta2
  (sAlpha, sBeta, sX, sDelta1, sDelta2)

/-- sign.Sign(publicKey, userPrivateKey, M): blinding scalars, deltas, the five
nonces, T values, R values, the Fiat-Shamir challenge, the s responses, and the
assembled signature.  The Go function only fails on RandomScalar errors, which
the explicit-randomness model cannot produce, so the result is total. -/
def Sign (q : ℕ) (hm : HashModel q) (publicKey : PublicKey q)
    (userPrivateKey : User q) (M : String) (rnd : SignRandomness q) : Signature q :=
  let deltas := ComputeDeltas q rnd.alpha rnd.beta userPrivateKey.X
  let T := ComputeTValues q rnd.alpha rnd.beta publicKey.H publicKey.U publicKey.V
    userPrivateKey.A
  let R := ComputeRValues q rnd.rAlpha rnd.rBeta rnd.rX rnd.rDelta1 rnd.rDelta2
    T.1 T.2.1 T.2.2 publicKey.H publicKey.U publicKey.V publicKey.W publicKey.G2
  let c := hm.hashToScalar
    (hm.serializeString M ++ hm.serializeG1 T.1 ++ hm.serializeG1 T.2.1 ++
      hm.serializeG1 T.2.2 ++ hm.serializeG1 R.1 ++ hm.serializeG1 R.2.1 ++
      hm.serializeGt R.2.2.1 ++ hm.serializeG1 R.2.2.2.1 ++ hm.serializeG1 R.2.2.2.2)
  let s := ComputeSValues q rnd.alpha rnd.beta userPrivateKey.X deltas.1 deltas.2
    rnd.rAlpha rnd.rBeta rnd.rX rnd.rDelta1 rnd.rDelta2 c
  { T1 := T.1, T2 := T.2.1, T3 := T.2.2, C := c,
    SAlpha := s.1, SBeta := s.2.1, SX := s.2.2.1,
    SDelta1 := s.2.2.2.1, SDelta2 := s.2.2.2.2 }

end Sign

namespace Verify

/-- verify.computeR1: R1 = u^s_alpha * T1^(-c).  The challenge is first copied
into a fresh scalar (`minusC.Set(&C)`) before negation. -/
def computeR1 (q : ℕ) (SAlpha : Scalar q) (u : G1e q) (C : Scalar q) (T1 : G1e q) :
    G1e q :=
  let R1 := SAlpha * u
  let minusC := C
  let minusC := -minusC
  let t1MinusC := minusC * T1
  R1 + t1MinusC

/-- verify.computeR2: R2 = v^s_beta * T2^(-c). -/
def computeR2 (q : ℕ) (SBeta : Scalar q) (v : G1e q) (C : Scalar q) (T2 : G1e q) :
    G1e q :=
  let R2 := SBeta * v
  let minusC := C
  let minusC := -minusC
  let t2MinusC := minusC * T2
  R2 + t2MinusC

/-- verify.computeR3 (the ProdPair variant used by the final Verify):
the five-pair multi-pairing with scalars
(s_x, -(s_alpha+s_beta), -(s_delta1+s_delta2), -c, c) on the pairs
(T3,g2), (h,w), (h,g2), (g1,g2), (T3,w). -/
def computeR3 (q : ℕ) (T3 g1 : G1e q) (g2 : G2e q) (SX : Scalar q) (h : G1e q)
    (w : G2e q) (SAlpha SBeta SDelta1 SDelta2 : Scalar q) (C : Scalar q) : GTe q :=
  let sAlphaBeta := -(SAlpha + SBeta)
  let sDelta := -(SDelta1 + SDelta2)
  let minusC := -C
  prodPair q [T3, h, h, g1, T3] [g2, w, g2, g2, w]
    [SX, sAlphaBeta, sDelta, minusC, C]

/-- verify.computeR4: R4 = T1^s_x * u^(-s_delta1), with s_delta1 copied into
a fresh scalar before negation. -/
def computeR4 (q : ℕ) (SX : Scalar q) (T1 u : G1e q) (SDelta1 : Scalar q) : G1e q :=
  let t1SX := SX * T1
  let minusSDelta1 := SDelta1
  let minusSDelta1 := -minusSDelta1
  let uSDelta1 := minusSDelta1 * u
  t1SX + uSDelta1

/-- verify.computeR5: R5 = T2^s_x * v^(-s_delta2). -/
def computeR5 (q : ℕ) (SX : Scalar q) (T2 v : G1e q) (SDelta2 : Scalar q) : G1e q :=
  let t2SX := SX * T2
  let minusSDelta2 := SDelta2
  let minusSDelta2 := -minusSDelta2
  let vSDelta2 := minusSDelta2 * v
  t2SX + vSDelta2

/-- verify.verifySignature: c.IsEqual(&C) == 1. -/
def verifySignature (q : ℕ) (c C : Scalar q) : Bool := decide (c = C)

/-- verify.Verify(publicKey, M, signature): recompute R1..R5, recompute the
challenge over the same transcript ordering as Sign, and accept iff it equals
the signature's challenge.  The only error path of the Go function is a
SHA-256 write failure inside HashToScalar, which cannot occur; the result is
modelled as the returned Bool. -/
def Verify (q : ℕ) (hm : HashModel q) (publicKey : PublicKey q) (M : String)
    (signature : Signature q) : Bool :=
  let R1 := computeR1 q signature.SAlpha publicKey.U signature.C signature.T1
  let R2 := computeR2 q signature.SBeta publicKey.V signature.C signature.T2
  let R3 := computeR3 q signature.T3 publicKey.G1 publicKey.G2 signature.SX
    publicKey.H publicKey.W signature.SAlpha signature.SBeta signature.SDelta1
    signature.SDelta2 signature.C
  let R4 := computeR4 q signature.SX signature.T1 publicKey.U signature.SDelta1
  let R5 := computeR5 q signature.SX signature.T2 publicKey.V signature.SDelta2
  let c := hm.hashToScalar
    (hm.serializeString M ++ hm.serializeG1 signature.T1 ++
      hm.serializeG1 signature.T2 ++ hm.serializeG1 signature.T3 ++
      hm.serializeG1 R1 ++ hm.serializeG1 R2 ++ hm.serializeGt R3 ++
      hm.serializeG1 R4 ++ hm.serializeG1 R5)
  verifySignature q c signature.C

end Verify

namespace VerifyOld

/-- The sequential computeR3 variant of the older verify draft
(src/models/models.go concatenation, lines 114-151): each scalar is applied by
scalar multiplication in G1, the five pairings are computed separately with
e.Pair, and the results are multiplied together in GT. -/
def computeR3 (q : ℕ) (T3 g1 : G1e q) (g2 : G2e q) (S_x : Scalar q) (h : G1e q)
    (w : G2e q) (S_alpha S_beta S_delta1 S_delta2 : Scalar q) (C : Scalar q) :
    GTe q :=
  let t3SX := S_x * T3
  let pair1Exp := pair q t3SX g2
  let sAlphaBeta := -(S_alpha + S_beta)
  let hSAlphaBeta := sAlphaBeta * h
  let pair2Exp := pair q hSAlphaBeta w
  let sDelta := -(S_delta1 + S_delta2)
  let hSDelta := sDelta * h
  let pair3Exp := pair q hSDelta g2
  let minusC := -C
  let g1MinusC := minusC * g1
  let pair4Exp := pair q g1MinusC g2
  let t3C := C * T3
  let pair5Exp := pair q t3C w
  pair1Exp + pair2Exp + pair3Exp + pair4Exp + pair5Exp

end VerifyOld

namespace Open

/-- open.RecoverUserPrivateKey: A = T3 * (T1^epsilon1 * T2^epsilon2)^(-1). -/
def RecoverUserPrivateKey (q : ℕ) (secretManagerKey : SecretManagerKey q)
    (signature : Signature q) : G1e q :=
  let t1Epsilon1 := secretManagerKey.Epsilon1 * signature.T1
  let t2Epsilon2 := secretManagerKey.Epsilon2 * signature.T2
  let sum := t1Epsilon1 + t2Epsilon2
  let sum := -sum
  signature.T3 + sum

/-- The linear search of open.Open: the `for i, user := range users` loop
returning the first index whose stored A equals the recovered A. -/
def searchUser (q : ℕ) (recoveredA : G1e q) : List (User q) → Option ℕ
  | [] => none
  | user :: rest =>
      if recoveredA = user.A then some 0
      else (searchUser q recoveredA rest).map (· + 1)

/-- open.Open (src/unnamed/part_000): verify the signature (the error branch
of Verify is unreachable in the model); on rejection return (-1, an error
"signature verification failed"); otherwise recover A and linearly search the
user table, returning the first matching index, or (-1, an error
"no matching user found for the recovered public key"). -/
def Open (q : ℕ) (hm : HashModel q) (publicKey : PublicKey q)
    (secretManagerKey : SecretManagerKey q) (m : String) (signature : Signature q)
    (users : List (User q)) : GoResult ℤ :=
  let isValid := Verify.Verify q hm publicKey m signature
  if !isValid then GoResult.err "signature verification failed"
  else
    let recoveredA := RecoverUserPrivateKey q secretManagerKey signature
    match searchUser q recoveredA users with
    | some i => GoResult.ok (i : ℤ)
    | none => GoResult.err "no matching user found for the recovered public key"

end Open

namespace Spec

/-- From the spec (4.4): R1 = u^{s_alpha} * T1^{-c}, written as the spec words
say it, to be compared with verify.computeR1. -/
def SpecR1 (q : ℕ) (u T1 : G1e q) (sAlpha c : Scalar q) : G1e q :=
  sAlpha * u + (-c) * T1

/-- From the spec (4.4): R2 = v^{s_beta} * T2^{-c}. -/
def SpecR2 (q : ℕ) (v T2 : G1e q) (sBeta c : Scalar q) : G1e q :=
  sBeta * v + (-c) * T2

/-- From the spec (4.4) and claim C3: R3 as the product of exactly five
pairings raised to scalars, over the pairs and scalars (T3, g2, s_x),
(h, w, -(s_alpha+s_beta)), (h, g2, -(s_delta1+s_delta2)), (g1, g2, -c),
(T3, w, c), each written as e(G, H)^s. -/
def SpecR3 (q : ℕ) (T3 g1 : G1e q) (g2 : G2e q) (h : G1e q) (w : G2e q)
    (sX sAlpha sBeta sDelta1 sDelta2 c : Scalar q) : GTe q :=
  sX * pair q T3 g2 + (-(sAlpha + sBeta)) * pair q h w +
    (-(sDelta1 + sDelta2)) * pair q h g2 + (-c) * pair q g1 g2 +
    c * pair q T3 w

/-- From the spec (4.4): R4 = T1^{s_x} * u^{-s_delta1}. -/
def SpecR4 (q : ℕ) (T1 u : G1e q) (sX sDelta1 : Scalar q) : G1e q :=
  sX * T1 + (-sDelta1) * u

/-- From the spec (4.4): R5 = T2^{s_x} * v^{-s_delta2}. -/
def SpecR5 (q : ℕ) (T2 v : G1e q) (sX sDelta2 : Scalar q) : G1e q :=
  sX * T2 + (-sDelta2) * v

/-- From the spec (6): the Fiat-Shamir transcript hash applied to
M, T1, T2, T3, R1, R2, R3, R4, R5 in that order -- the same input ordering
Sign uses for its challenge. -/
def SpecChallenge (q : ℕ) (hm : HashModel q) (M : String) (T1 T2 T3 : G1e q)
    (R1 R2 : G1e q) (R3 : GTe q) (R4 R5 : G1e q) : Scalar q :=
  hm.hashToScalar
    (hm.serializeString M ++ hm.serializeG1 T1 ++ hm.serializeG1 T2 ++
      hm.serializeG1 T3 ++ hm.serializeG1 R1 ++ hm.serializeG1 R2 ++
      hm.serializeGt R3 ++ hm.serializeG1 R4 ++ hm.serializeG1 R5)

end Spec

namespace VerifyCells

/-!
Mutation-explicit retranslation of verify.Verify for the frame claim.  circl
operations mutate their receiver, so a Go statement `x.Op(args)` is an
assignment to the cell `x`.  In the Go code the pointer-typed fields of the
signature and the public key are cells shared with the caller; each helper is
retranslated here statement by statement, rebinding a variable exactly when
the Go code writes the corresponding cell, and returning -- next to its
result -- the final values of the cells its pointer arguments name.  In
particular `minusC.Set(&C); minusC.Neg()` copies into a fresh cell before
negating, so no input cell is ever written.
-/

/-- verify.computeR1 with explicit cells: result plus the final values of the
cells behind SAlpha, u and T1 (the challenge C arrives by value). -/
def computeR1Cells (q : ℕ) (SAlpha : Scalar q) (u : G1e q) (C : Scalar q)
    (T1 : G1e q) : G1e q × Scalar q × G1e q × G1e q :=
  let R1 := SAlpha * u
  let minusC := C
  let minusC := -minusC
  let t1MinusC := minusC * T1
  let R1 := R1 + t1MinusC
  (R1, SAlpha, u, T1)

/-- verify.computeR2 with explicit cells. -/
def computeR2Cells (q : ℕ) (SBeta : Scalar q) (v : G1e q) (C : Scalar q)
    (T2 : G1e q) : G1e q × Scalar q × G1e q × G1e q :=
  let R2 := SBeta * v
  let minusC := C
  let minusC := -minusC
  let t2MinusC := minusC * T2
  let R2 := R2 + t2MinusC
  (R2, SBeta, v, T2)

/-- verify.computeR3 with explicit cells: the sums and negations land in the
fresh cells sAlphaBeta, sDelta and minusC; ProdPair only reads its inputs. -/
def computeR3Cells (q : ℕ) (T3 g1 : G1e q) (g2 : G2e q) (SX : Scalar q)
    (h : G1e q) (w : G2e q) (SAlpha SBeta SDelta1 SDelta2 : Scalar q)
    (C : Scalar q) :
    GTe q × G1e q × G1e q × G2e q × Scalar q × G1e q × G2e q ×
      Scalar q × Scalar q × Scalar q × Scalar q :=
  let sAlphaBeta := SAlpha + SBeta
  let sAlphaBeta := -sAlphaBeta
  let sDelta := SDelta1 + SDelta2
  let sDelta := -sDelta
  let minusC := C
  let minusC := -minusC
  let R3 := prodPair q [T3, h, h, g1, T3] [g2, w, g2, g2, w]
    [SX, sAlphaBeta, sDelta, minusC, C]
  (R3, T3, g1, g2, SX, h, w, SAlpha, SBeta, SDelta1, SDelta2)

/-- verify.computeR4 with explicit cells. -/
def computeR4Cells (q : ℕ) (SX : Scalar q) (T1 u : G1e q) (SDelta1 : Scalar q) :
    G1e q × Scalar q × G1e q × G1e q × Scalar q :=
  let t1SX := SX * T1
  let minusSDelta1 := SDelta1
  let minusSDelta1 := -minusSDelta1
  let uSDelta1 := minusSDelta1 * u
  let R4 := t1SX + uSDelta1
  (R4, SX, T1, u, SDelta1)

/-- verify.computeR5 with explicit cells. -/
def computeR5Cells (q : ℕ) (SX : Scalar q) (T2 v : G1e q) (SDelta2 : Scalar q) :
    G1e q × Scalar q × G1e q × G1e q × Scalar q :=
  let t2SX := SX * T2
  let minusSDelta2 := SDelta2
  let minusSDelta2 := -minusSDelta2
  let vSDelta2 := minusSDelta2 * v
  let R5 := t2SX + vSDelta2
  (R5, SX, T2, v, SDelta2)

/-- verify.Verify with explicit cells: the helpers run in program order, each
receiving the current values of the cells it reads, and the call returns the
boolean result together with the final contents of the public key's and the
signature's cells. -/
def VerifyCells (q : ℕ) (hm : HashModel q) (publicKey : PublicKey q)
    (M : String) (signature : Signature q) :
    Bool × PublicKey q × Signature q :=
  let (R1, sAlphaA, uA, t1A) :=
    computeR1Cells q signature.SAlpha publicKey.U signature.C signature.T1
  let (R2, sBetaA, vA, t2A) :=
    computeR2Cells q signature.SBeta publicKey.V signature.C signature.T2
  let (R3, t3A, g1A, g2A, sxA, hA, wA, sAlphaB, sBetaB, sDelta1A, sDelta2A) :=
    computeR3Cells q signature.T3 publicKey.G1 publicKey.G2 signature.SX
      publicKey.H publicKey.W sAlphaA sBetaA signature.SDelta1
      signature.SDelta2 signature.C
  let (R4, sxB, t1B, uB, sDelta1B) := computeR4Cells q sxA t1A uA sDelta1A
  let (R5, sxC, t2B, vB, sDelta2B) := computeR5Cells q sxB t2A vA sDelta2A
  let c := hm.hashToScalar
    (hm.serializeString M ++ hm.serializeG1 t1B ++ hm.serializeG1 t2B ++
      hm.serializeG1 t3A ++ hm.serializeG1 R1 ++ hm.serializeG1 R2 ++
      hm.serializeGt R3 ++ hm.serializeG1 R4 ++ hm.serializeG1 R5)
  let ok := Verify.verifySignature q c signature.C
  (ok,
    { G1 := g1A, G2 := g2A, H := hA, U := uB, V := vB, W := wA },
    { T1 := t1B, T2 := t2B, T3 := t3A, C := signature.C, SAlpha := sAlphaB,
      SBeta := sBetaB, SX := sxC, SDelta1 := sDelta1B, SDelta2 := sDelta2B })

end VerifyCells

/-!
## Concrete test instances

A small concrete instantiation at q = 7 used by witnesses and
counterexamples: serializations encode a group element as its single
representative digit, the message contributes no bytes, and both hash oracles
are the digit sum reduced mod 7.  (Witness evaluation only needs computable
oracles, not collision resistance.)
-/

instance : Fact (Nat.Prime 7) := ⟨by norm_num⟩

/-- Concrete byte-level oracle at q = 7 for witness evaluation. -/
def hmC : HashModel 7 where
  serializeString := fun _ => []
  serializeG1 := fun a => [a.val]
  serializeGt := fun a => [a.val]
  hashToScalar := fun l => ((l.sum : ℕ) : ZMod 7)
  hashG1 := fun l _ => ((l.sum : ℕ) : ZMod 7)

/-- Concrete KeyGen randomness for an honest two-user run at q = 7. -/
def rndA : Keygen.KeyGenRandomness 7 where
  hBytes := fun _ => 1
  epsilon1 := 3
  epsilon2 := 5
  gamma := 2
  xs := fun i => if i = 0 then 1 else 4

/-- Concrete Sign randomness for the honest runs at q = 7. -/
def srndA : Sign.SignRandomness 7 where
  alpha := 1
  beta := 2
  rAlpha := 3
  rBeta := 4
  rX := 5
  rDelta1 := 6
  rDelta2 := 1

/-- The KeyGen output on `rndA`: h = 48 mod 7 = 6, u = 3⁻¹ * 6 = 2,
v = 5⁻¹ * 6 = 4, w = 2, A_0 = 3⁻¹ = 5, A_1 = 6⁻¹ = 6. -/
def resA : KeyGenResult 7 where
  publicKey := { G1 := 1, G2 := 1, H := 6, U := 2, V := 4, W := 2 }
  secretManagerKey := { Epsilon1 := 3, Epsilon2 := 5 }
  users := [{ A := 5, X := 1 }, { A := 6, X := 4 }]

/-- KeyGen randomness hitting the degenerate case gamma + x_0 = 0 at q = 7
(gamma = 1, every sampled x_i = 6; both are nonzero, so RandomScalar can
produce them). -/
def rndBad : Keygen.KeyGenRandomness 7 where
  hBytes := fun _ => 1
  epsilon1 := 3
  epsilon2 := 5
  gamma := 1
  xs := fun _ => 6

/-- The KeyGen output on `rndBad`: the single credential is the identity,
A_0 = g1^(0⁻¹) = g1^0. -/
def resBad : KeyGenResult 7 where
  publicKey := { G1 := 1, G2 := 1, H := 6, U := 2, V := 4, W := 1 }
  secretManagerKey := { Epsilon1 := 3, Epsilon2 := 5 }
  users := [{ A := 0, X := 6 }]

/-- KeyGen randomness at q = 7 in which users 0 and 1 draw the same x (a
possible output of independent sampling), so they receive identical
credentials. -/
def rndDup : Keygen.KeyGenRandomness 7 where
  hBytes := fun _ => 1
  epsilon1 := 3
  epsilon2 := 5
  gamma := 2
  xs := fun _ => 1

/-- The KeyGen output on `rndDup`: both users hold (A, x) = (5, 1). -/
def resDup : KeyGenResult 7 where
  publicKey := { G1 := 1, G2 := 1, H := 6, U := 2, V := 4, W := 2 }
  secretManagerKey := { Epsilon1 := 3, Epsilon2 := 5 }
  users := [{ A := 5, X := 1 }, { A := 5, X := 1 }]

/-- An arbitrary malformed signature at q = 7 that Verify rejects. -/
def sigBad : Signature 7 where
  T1 := 1
  T2 := 1
  T3 := 1
  C := 1
  SAlpha := 1
  SBeta := 1
  SX := 1
  SDelta1 := 1
  SDelta2 := 1

/-- A byte-level oracle whose hash-to-G1 lands on the identity element (the
hash-to-curve map can hit the identity; nothing in RandomG1Element excludes
it). -/
def hmIdent : HashModel 7 :=
  { hmC with hashG1 := fun _ _ => 0 }

/-!
## Core algebra of the honest run
-/

/-- circl's Fermat inversion cancels against any nonzero scalar. -/
lemma scalarInv_cancel (q : ℕ) [Fact (Nat.Prime q)] (s : Scalar q) (hs : s ≠ 0) :
    s * scalarInv q s = 1 := by
  have h1 : s ^ (q - 1) = 1 := ZMod.pow_card_sub_one_eq_one hs
  have hq : 2 ≤ q := (Fact.out : Nat.Prime q).two_le
  unfold scalarInv
  calc s * s ^ (q - 2) = s ^ (q - 2 + 1) := by rw [pow_succ]; ring
    _ = s ^ (q - 1) := by congr 1; omega
    _ = 1 := h1

/-- The honest signature verifies: whenever the public key satisfies
w = g2^gamma and the signer's credential satisfies the SDH relation
(x + gamma) * A = g1, the challenge Verify recomputes from the signature
equals the signed challenge, for every byte-level oracle.  This is the
round-trip core shared by the Sign/Verify and Open theorems. -/
lemma verify_sign_eq_true (q : ℕ) (hm : HashModel q) (pk : PublicKey q)
    (user : User q) (gamma : Scalar q) (hw : pk.W = gamma * pk.G2)
    (hA : (user.X + gamma) * user.A = pk.G1) (M : String)
    (srnd : Sign.SignRandomness q) :
    Verify.Verify q hm pk M (Sign.Sign q hm pk user M srnd) = true := by
  set sig := Sign.Sign q hm pk user M srnd with hsig
  have hT1 : sig.T1 = srnd.alpha * pk.U := rfl
  have hT2 : sig.T2 = srnd.beta * pk.V := rfl
  have hT3 : sig.T3 = (srnd.alpha + srnd.beta) * pk.H + user.A := rfl
  have hSA : sig.SAlpha = srnd.alpha * sig.C + srnd.rAlpha := rfl
  have hSB : sig.SBeta = srnd.beta * sig.C + srnd.rBeta := rfl
  have hSX : sig.SX = user.X * sig.C + srnd.rX := rfl
  have hSD1 : sig.SDelta1 = srnd.alpha * user.X * sig.C + srnd.rDelta1 := by
    show srnd.alpha * user.X * sig.C + srnd.rDelta1 =
      srnd.alpha * user.X * sig.C + srnd.rDelta1
    rfl
  have hSD2 : sig.SDelta2 = srnd.beta * user.X * sig.C + srnd.rDelta2 := by
    show srnd.beta * user.X * sig.C + srnd.rDelta2 =
      srnd.beta * user.X * sig.C + srnd.rDelta2
    rfl
  have hR1 : Verify.computeR1 q sig.SAlpha pk.U sig.C sig.T1 =
      srnd.rAlpha * pk.U := by
    rw [hSA, hT1]; unfold Verify.computeR1; ring
  have hR2 : Verify.computeR2 q sig.SBeta pk.V sig.C sig.T2 =
      srnd.rBeta * pk.V := by
    rw [hSB, hT2]; unfold Verify.computeR2; ring
  have hR3 : Verify.computeR3 q sig.T3 pk.G1 pk.G2 sig.SX pk.H pk.W sig.SAlpha
      sig.SBeta sig.SDelta1 sig.SDelta2 sig.C =
      Sign.ComputeR3 q ((srnd.alpha + srnd.beta) * pk.H + user.A) pk.G2 pk.H pk.W
        srnd.rX srnd.rAlpha srnd.rBeta srnd.rDelta1 srnd.rDelta2 := by
    rw [hT3, hSX, hSA, hSB, hSD1, hSD2, hw]
    unfold Verify.computeR3 Sign.ComputeR3 prodPair pair
    simp only [List.zip_cons_cons, List.zip_nil_right, List.map_cons, List.map_nil,
      List.sum_cons, List.sum_nil]
    linear_combination (sig.C * pk.G2) * hA
  have hR4 : Verify.computeR4 q sig.SX sig.T1 pk.U sig.SDelta1 =
      Sign.ComputeR4 q (srnd.alpha * pk.U) pk.U srnd.rX srnd.rDelta1 := by
    rw [hSX, hT1, hSD1]
    unfold Verify.computeR4 Sign.ComputeR4
    ring
  have hR5 : Verify.computeR5 q sig.SX sig.T2 pk.V sig.SDelta2 =
      Sign.ComputeR5 q (srnd.beta * pk.V) pk.V srnd.rX srnd.rDelta2 := by
    rw [hSX, hT2, hSD2]
    unfold Verify.computeR5 Sign.ComputeR5
    ring
  have hC : sig.C = hm.hashToScalar
      (hm.serializeString M ++ hm.serializeG1 (srnd.alpha * pk.U) ++
        hm.serializeG1 (srnd.beta * pk.V) ++
        hm.serializeG1 ((srnd.alpha + srnd.beta) * pk.H + user.A) ++
        hm.serializeG1 (srnd.rAlpha * pk.U) ++ hm.serializeG1 (srnd.rBeta * pk.V) ++
        hm.serializeGt (Sign.ComputeR3 q ((srnd.alpha + srnd.beta) * pk.H + user.A)
          pk.G2 pk.H pk.W srnd.rX srnd.rAlpha srnd.rBeta srnd.rDelta1 srnd.rDelta2) ++
        hm.serializeG1 (Sign.ComputeR4 q (srnd.alpha * pk.U) pk.U srnd.rX
          srnd.rDelta1) ++
        hm.serializeG1 (Sign.ComputeR5 q (srnd.beta * pk.V) pk.V srnd.rX
          srnd.rDelta2)) := rfl
  show Verify.Verify q hm pk M sig = true
  unfold Verify.Verify
  rw [hR1, hR2, hR3, hR4, hR5, hT1, hT2, hT3]
  unfold Verify.verifySignature
  simp only [decide_eq_true_eq]
  exact (hC).symm

/-- Shape of a successful KeyGen run: the generators are fixed, u and v are
built from the Fermat inverses of the epsilons, w = g2^gamma, the manager key
stores the epsilons, and user i holds (ComputeAi(g1, gamma, x_i), x_i). -/
lemma keyGen_ok_shape (q : ℕ) (hm : HashModel q) (n : ℤ)
    (rnd : Keygen.KeyGenRandomness q) (res : KeyGenResult q)
    (hres : Keygen.KeyGen q hm n rnd = GoResult.ok res) :
    res.publicKey.G1 = 1 ∧ res.publicKey.G2 = 1 ∧
    res.publicKey.U = scalarInv q rnd.epsilon1 * res.publicKey.H ∧
    res.publicKey.V = scalarInv q rnd.epsilon2 * res.publicKey.H ∧
    res.publicKey.W = rnd.gamma * res.publicKey.G2 ∧
    res.secretManagerKey = { Epsilon1 := rnd.epsilon1, Epsilon2 := rnd.epsilon2 } ∧
    res.users = (List.range n.toNat).map
      (fun i => { A := Keygen.ComputeAi q 1 rnd.gamma (rnd.xs i), X := rnd.xs i }) := by
  unfold Keygen.KeyGen Keygen.ComputeSDHTuples Keygen.ComputeUAndV
    Keygen.ComputeW at hres
  by_cases hn : n < 0
  · simp [hn] at hres
  · simp only [hn, if_false] at hres
    cases hres
    refine ⟨rfl, rfl, rfl, rfl, by simp, rfl, rfl⟩

/-- Entry i of a successful KeyGen run. -/
lemma keyGen_ok_user (q : ℕ) (hm : HashModel q) (n : ℤ)
    (rnd : Keygen.KeyGenRandomness q) (res : KeyGenResult q)
    (hres : Keygen.KeyGen q hm n rnd = GoResult.ok res) (i : ℕ)
    (hi : i < res.users.length) :
    res.users.get ⟨i, hi⟩ =
      { A := Keygen.ComputeAi q 1 rnd.gamma (rnd.xs i), X := rnd.xs i } := by
  obtain ⟨-, -, -, -, -, -, husers⟩ := keyGen_ok_shape q hm n rnd res hres
  simp only [List.get_eq_getElem, husers, List.getElem_map, List.getElem_range]

/-- Round trip over a KeyGen output: the honest signature of user i verifies
whenever the issuing randomness satisfies gamma + x_i <> 0.  Shared by the
Sign/Verify and Open theorems. -/
lemma keygen_round_trip (q : ℕ) [Fact (Nat.Prime q)] (hm : HashModel q)
    (n : ℤ) (rnd : Keygen.KeyGenRandomness q) (res : KeyGenResult q)
    (hres : Keygen.KeyGen q hm n rnd = GoResult.ok res) (i : ℕ)
    (hi : i < res.users.length) (M : String) (srnd : Sign.SignRandomness q)
    (hgx : rnd.gamma + rnd.xs i ≠ 0) :
    Verify.Verify q hm res.publicKey M
      (Sign.Sign q hm res.publicKey (res.users.get ⟨i, hi⟩) M srnd) = true := by
  obtain ⟨hg1, -, -, -, hW, -, -⟩ := keyGen_ok_shape q hm n rnd res hres
  have huser := keyGen_ok_user q hm n rnd res hres i hi
  apply verify_sign_eq_true q hm res.publicKey _ rnd.gamma hW
  rw [huser, hg1]
  show (rnd.xs i + rnd.gamma) * Keygen.ComputeAi q 1 rnd.gamma (rnd.xs i) = 1
  unfold Keygen.ComputeAi
  have hc := scalarInv_cancel q (rnd.gamma + rnd.xs i) hgx
  linear_combination hc

/-- C1 (amended): verifying an honestly produced signature succeeds for every
KeyGen output, every user index and every message, PROVIDED the issuing
randomness satisfies gamma + x_i <> 0 for the chosen user.  (KeyGen does not
resample that degenerate case; see the C7 and C1 counterexample theorems.)
The statement quantifies over every byte-level oracle. -/
theorem c1_round_trip_amended (q : ℕ) [Fact (Nat.Prime q)] (hm : HashModel q)
    (n : ℤ) (rnd : Keygen.KeyGenRandomness q) (res : KeyGenResult q)
    (hres : Keygen.KeyGen q hm n rnd = GoResult.ok res) (i : ℕ)
    (hi : i < res.users.length) (M : String) (srnd : Sign.SignRandomness q)
    (hgx : rnd.gamma + rnd.xs i ≠ 0) :
    Verify.Verify q hm res.publicKey M
      (Sign.Sign q hm res.publicKey (res.users.get ⟨i, hi⟩) M srnd) = true :=
  keygen_round_trip q hm n rnd res hres i hi M srnd hgx

/-- Witness for C1 at the concrete two-user instance. -/
theorem c1_round_trip_amended_witness :
    Verify.Verify 7 hmC resA.publicKey "m"
      (Sign.Sign 7 hmC resA.publicKey (resA.users.get ⟨0, by decide⟩) "m" srndA)
      = true :=
  c1_round_trip_amended 7 hmC 2 rndA resA (by decide) 0 (by decide) "m" srndA
    (by decide)

/-- C1 counterexample: the claim quantifies over every KeyGen output, but on
the randomness `rndBad` (all scalars nonzero, so producible by RandomScalar)
the only user draws x_0 = -gamma; KeyGen issues the identity credential
without resampling and the honest signature is rejected. -/
theorem c1_round_trip_counterexample :
    Keygen.KeyGen 7 hmC 1 rndBad = GoResult.ok resBad ∧
    Verify.Verify 7 hmC resBad.publicKey "m"
      (Sign.Sign 7 hmC resBad.publicKey (resBad.users.get ⟨0, by decide⟩) "m" srndA)
      = false := by decide

/-- Opening recovers the plaintext credential from an honest signature:
T3 * (T1^eps1 * T2^eps2)^(-1) = A, given the linear-encryption basis
relations u = h^(eps1⁻¹), v = h^(eps2⁻¹) with nonzero epsilons. -/
lemma recover_of_sign (q : ℕ) [Fact (Nat.Prime q)] (hm : HashModel q)
    (pk : PublicKey q) (user : User q) (smk : SecretManagerKey q) (M : String)
    (srnd : Sign.SignRandomness q)
    (hU : pk.U = scalarInv q smk.Epsilon1 * pk.H)
    (hV : pk.V = scalarInv q smk.Epsilon2 * pk.H)
    (he1 : smk.Epsilon1 ≠ 0) (he2 : smk.Epsilon2 ≠ 0) :
    Open.RecoverUserPrivateKey q smk (Sign.Sign q hm pk user M srnd) = user.A := by
  set sig := Sign.Sign q hm pk user M srnd with hsig
  have hT1 : sig.T1 = srnd.alpha * pk.U := rfl
  have hT2 : sig.T2 = srnd.beta * pk.V := rfl
  have hT3 : sig.T3 = (srnd.alpha + srnd.beta) * pk.H + user.A := rfl
  unfold Open.RecoverUserPrivateKey
  rw [hT1, hT2, hT3, hU, hV]
  have h1 := scalarInv_cancel q smk.Epsilon1 he1
  have h2 := scalarInv_cancel q smk.Epsilon2 he2
  linear_combination (-(srnd.alpha * pk.H)) * h1 + (-(srnd.beta * pk.H)) * h2

/-- The linear search of open.Open returns the first index whose stored A
equals the target. -/
lemma searchUser_first (q : ℕ) (a : G1e q) (l : List (User q)) (i : ℕ)
    (hi : i < l.length)
    (hfirst : ∀ j (hj : j < i), a ≠ (l.get ⟨j, Nat.lt_trans hj hi⟩).A)
    (hmatch : a = (l.get ⟨i, hi⟩).A) :
    Open.searchUser q a l = some i := by
  induction l generalizing i with
  | nil => simp at hi
  | cons u rest ih =>
    cases i with
    | zero =>
      simp only [List.get] at hmatch
      simp [Open.searchUser, hmatch]
    | succ i =>
      have hne : a ≠ u.A := hfirst 0 (Nat.succ_pos i)
      have hrest : Open.searchUser q a rest = some i := by
        apply ih i (Nat.lt_of_succ_lt_succ hi)
        · intro j hj
          exact hfirst (j + 1) (Nat.succ_lt_succ hj)
        · exact hmatch
      simp [Open.searchUser, hne, hrest]

/-- C2 (amended): opening an honest signature of user i returns i, for every
KeyGen output, PROVIDED the issuing randomness satisfies gamma + x_i <> 0 (so
Verify accepts) and no user before i holds the same credential A (the x_j are
sampled independently, so a collision x_j = x_i would make the linear search
stop at the earlier index; see the counterexample).  The nonzero epsilons are
guaranteed by RandomScalar's rejection sampling. -/
theorem c2_open_identifies_signer_amended (q : ℕ) [Fact (Nat.Prime q)]
    (hm : HashModel q) (n : ℤ) (rnd : Keygen.KeyGenRandomness q)
    (res : KeyGenResult q) (hres : Keygen.KeyGen q hm n rnd = GoResult.ok res)
    (i : ℕ) (hi : i < res.users.length) (M : String)
    (srnd : Sign.SignRandomness q) (hgx : rnd.gamma + rnd.xs i ≠ 0)
    (he1 : rnd.epsilon1 ≠ 0) (he2 : rnd.epsilon2 ≠ 0)
    (hfirst : ∀ j (hj : j < i),
      (res.users.get ⟨j, Nat.lt_trans hj hi⟩).A ≠ (res.users.get ⟨i, hi⟩).A) :
    Open.Open q hm res.publicKey res.secretManagerKey M
      (Sign.Sign q hm res.publicKey (res.users.get ⟨i, hi⟩) M srnd) res.users
      = GoResult.ok (i : ℤ) := by
  have hver := keygen_round_trip q hm n rnd res hres i hi M srnd hgx
  obtain ⟨-, -, hU, hV, -, hsmk, -⟩ := keyGen_ok_shape q hm n rnd res hres
  have he1s : res.secretManagerKey.Epsilon1 ≠ 0 := by rw [hsmk]; exact he1
  have he2s : res.secretManagerKey.Epsilon2 ≠ 0 := by rw [hsmk]; exact he2
  have hUs : res.publicKey.U =
      scalarInv q res.secretManagerKey.Epsilon1 * res.publicKey.H := by
    rw [hsmk]; exact hU
  have hVs : res.publicKey.V =
      scalarInv q res.secretManagerKey.Epsilon2 * res.publicKey.H := by
    rw [hsmk]; exact hV
  have hrec := recover_of_sign q hm res.publicKey (res.users.get ⟨i, hi⟩)
    res.secretManagerKey M srnd hUs hVs he1s he2s
  have hsearch := searchUser_first q ((res.users.get ⟨i, hi⟩).A) res.users i hi
    (fun j hj => (hfirst j hj).symm) rfl
  simp only [Open.Open, hver, Bool.not_true, Bool.false_eq_true, if_false, hrec,
    hsearch]

/-- Witness for C2 at the concrete two-user instance, user index 0. -/
theorem c2_open_identifies_signer_amended_witness :
    Open.Open 7 hmC resA.publicKey resA.secretManagerKey "m"
      (Sign.Sign 7 hmC resA.publicKey (resA.users.get ⟨0, by decide⟩) "m" srndA)
      resA.users = GoResult.ok 0 :=
  c2_open_identifies_signer_amended 7 hmC 2 rndA resA (by decide) 0 (by decide)
    "m" srndA (by decide) (by decide) (by decide)
    (fun j hj => absurd hj (Nat.not_lt_zero j))

/-- C3: Verify accepts a signature exactly when the challenge recomputed over
the spec transcript -- with R3 the five-term multi-pairing product over the
pairs and scalars of the claim, and the hash inputs in Sign's ordering --
equals the signature's stored challenge. -/
theorem c3_verify_accepts_iff (q : ℕ) (hm : HashModel q) (pk : PublicKey q)
    (M : String) (sig : Signature q) :
    Verify.Verify q hm pk M sig = true ↔
      Spec.SpecChallenge q hm M sig.T1 sig.T2 sig.T3
        (Spec.SpecR1 q pk.U sig.T1 sig.SAlpha sig.C)
        (Spec.SpecR2 q pk.V sig.T2 sig.SBeta sig.C)
        (Spec.SpecR3 q sig.T3 pk.G1 pk.G2 pk.H pk.W sig.SX sig.SAlpha sig.SBeta
          sig.SDelta1 sig.SDelta2 sig.C)
        (Spec.SpecR4 q sig.T1 pk.U sig.SX sig.SDelta1)
        (Spec.SpecR5 q sig.T2 pk.V sig.SX sig.SDelta2) = sig.C := by
  have e1 : Verify.computeR1 q sig.SAlpha pk.U sig.C sig.T1 =
      Spec.SpecR1 q pk.U sig.T1 sig.SAlpha sig.C := by
    unfold Verify.computeR1 Spec.SpecR1; ring
  have e2 : Verify.computeR2 q sig.SBeta pk.V sig.C sig.T2 =
      Spec.SpecR2 q pk.V sig.T2 sig.SBeta sig.C := by
    unfold Verify.computeR2 Spec.SpecR2; ring
  have e3 : Verify.computeR3 q sig.T3 pk.G1 pk.G2 sig.SX pk.H pk.W sig.SAlpha
      sig.SBeta sig.SDelta1 sig.SDelta2 sig.C =
      Spec.SpecR3 q sig.T3 pk.G1 pk.G2 pk.H pk.W sig.SX sig.SAlpha sig.SBeta
        sig.SDelta1 sig.SDelta2 sig.C := by
    unfold Verify.computeR3 Spec.SpecR3 prodPair pair
    simp only [List.zip_cons_cons, List.zip_nil_right, List.map_cons,
      List.map_nil, List.sum_cons, List.sum_nil]
    ring
  have e4 : Verify.computeR4 q sig.SX sig.T1 pk.U sig.SDelta1 =
      Spec.SpecR4 q sig.T1 pk.U sig.SX sig.SDelta1 := by
    unfold Verify.computeR4 Spec.SpecR4; ring
  have e5 : Verify.computeR5 q sig.SX sig.T2 pk.V sig.SDelta2 =
      Spec.SpecR5 q sig.T2 pk.V sig.SX sig.SDelta2 := by
    unfold Verify.computeR5 Spec.SpecR5; ring
  unfold Verify.Verify Verify.verifySignature Spec.SpecChallenge
  rw [e1, e2, e3, e4, e5]
  simp only [decide_eq_true_eq]

/-- C5: the older sequential computeR3 (separate e.Pair calls multiplied in
GT, scalars applied in G1) and the ProdPair-based computeR3 used by the final
Verify compute the same GT element on all inputs. -/
theorem c5_computeR3_variants_agree (q : ℕ) (T3 g1 : G1e q) (g2 : G2e q)
    (SX : Scalar q) (h : G1e q) (w : G2e q)
    (SAlpha SBeta SDelta1 SDelta2 : Scalar q) (C : Scalar q) :
    VerifyOld.computeR3 q T3 g1 g2 SX h w SAlpha SBeta SDelta1 SDelta2 C =
      Verify.computeR3 q T3 g1 g2 SX h w SAlpha SBeta SDelta1 SDelta2 C := by
  unfold VerifyOld.computeR3 Verify.computeR3 prodPair pair
  simp only [List.zip_cons_cons, List.zip_nil_right, List.map_cons,
    List.map_nil, List.sum_cons, List.sum_nil]
  ring

/-- C4 (amended): every successful KeyGen output satisfies u^eps1 = h and
v^eps2 = h (the epsilons are nonzero by RandomScalar's rejection sampling),
and user i's credential satisfies the SDH relation
e(A_i, w * g2^{x_i}) = e(g1, g2) PROVIDED gamma + x_i <> 0; KeyGen does not
enforce that proviso, and the relation fails when gamma + x_i = 0 (see the
counterexample). -/
theorem c4_keygen_invariants_amended (q : ℕ) [Fact (Nat.Prime q)]
    (hm : HashModel q) (n : ℤ) (rnd : Keygen.KeyGenRandomness q)
    (res : KeyGenResult q) (hres : Keygen.KeyGen q hm n rnd = GoResult.ok res)
    (he1 : rnd.epsilon1 ≠ 0) (he2 : rnd.epsilon2 ≠ 0) :
    res.secretManagerKey.Epsilon1 * res.publicKey.U = res.publicKey.H ∧
    res.secretManagerKey.Epsilon2 * res.publicKey.V = res.publicKey.H ∧
    ∀ i (hi : i < res.users.length),
      rnd.gamma + (res.users.get ⟨i, hi⟩).X ≠ 0 →
      pair q (res.users.get ⟨i, hi⟩).A
        (res.publicKey.W + (res.users.get ⟨i, hi⟩).X * res.publicKey.G2) =
      pair q res.publicKey.G1 res.publicKey.G2 := by
  obtain ⟨hg1, hg2, hU, hV, hW, hsmk, -⟩ := keyGen_ok_shape q hm n rnd res hres
  refine ⟨?_, ?_, ?_⟩
  · rw [hsmk, hU]
    have h1 := scalarInv_cancel q rnd.epsilon1 he1
    linear_combination res.publicKey.H * h1
  · rw [hsmk, hV]
    have h2 := scalarInv_cancel q rnd.epsilon2 he2
    linear_combination res.publicKey.H * h2
  · intro i hi hx
    have hu := keyGen_ok_user q hm n rnd res hres i hi
    rw [hu] at hx ⊢
    simp only at hx ⊢
    rw [hW, hg1, hg2]
    unfold pair Keygen.ComputeAi
    have hc := scalarInv_cancel q (rnd.gamma + rnd.xs i) hx
    linear_combination hc

/-- Witness for C4 at the concrete two-user instance, with the SDH relation
instantiated at user 0. -/
theorem c4_keygen_invariants_amended_witness :
    resA.secretManagerKey.Epsilon1 * resA.publicKey.U = resA.publicKey.H ∧
    pair 7 (resA.users.get ⟨0, by decide⟩).A
      (resA.publicKey.W + (resA.users.get ⟨0, by decide⟩).X * resA.publicKey.G2)
      = pair 7 resA.publicKey.G1 resA.publicKey.G2 :=
  ⟨(c4_keygen_invariants_amended 7 hmC 2 rndA resA (by decide) (by decide)
      (by decide)).1,
    (c4_keygen_invariants_amended 7 hmC 2 rndA resA (by decide) (by decide)
      (by decide)).2.2 0 (by decide) (by decide)⟩

/-- C4 counterexample: on the KeyGen output `resBad` (where gamma + x_0 = 0)
the issued credential is the identity and the SDH relation
e(A_0, w * g2^{x_0}) = e(g1, g2) fails, so the invariant does not hold for
every KeyGen output. -/
theorem c4_keygen_invariants_counterexample :
    Keygen.KeyGen 7 hmC 1 rndBad = GoResult.ok resBad ∧
    ¬ (pair 7 (resBad.users.get ⟨0, by decide⟩).A
        (resBad.publicKey.W + (resBad.users.get ⟨0, by decide⟩).X *
          resBad.publicKey.G2) =
       pair 7 resBad.publicKey.G1 resBad.publicKey.G2) := by decide

/-- C6: KeyGen(-1) does not return an invalid-argument error: the Go code has
no sign check and `make([]models.User, n)` panics on a negative length (the
`GoResult.panic` outcome), while KeyGen(0) succeeds with an empty user list
and a fully formed gpk and gmsk.  The claim's rejected-with-error half is the
code bug; the n = 0 half holds. -/
theorem c6_keygen_negative_panics_zero_ok :
    Keygen.KeyGen 7 hmC (-1) rndA = GoResult.panic "makeslice: len out of range" ∧
    Keygen.KeyGen 7 hmC 0 rndA = GoResult.ok
      { publicKey := resA.publicKey, secretManagerKey := resA.secretManagerKey,
        users := [] } := by decide

/-- C7: KeyGen's per-user loop never resamples x_i.  At gamma = 1, x_0 = 6
(= q - 1 at q = 7, both nonzero so RandomScalar can produce them):
gamma + x_0 = 0, the Fermat inverse of zero is zero (as in circl), ComputeAi
returns the identity element, and ComputeSDHTuples still returns that
degenerate credential instead of resampling. -/
theorem c7_no_resampling_inverse_of_zero :
    ((1 : Scalar 7) + 6 = 0) ∧
    scalarInv 7 0 = 0 ∧
    Keygen.ComputeAi 7 1 1 6 = 0 ∧
    Keygen.ComputeSDHTuples 7 1 1 1 (fun _ => 6) =
      GoResult.ok [{ A := 0, X := 6 }] := by decide

/-- C8 (amended): on Verify rejection, Open returns -1 together with the Go
error "signature verification failed" -- an error outcome, not a nil-error
no-signer result -- and it does so before recovering A; when Verify accepts
but the recovered A matches no user, Open returns -1 with the distinct Go
error "no matching user found for the recovered public key". -/
theorem c8_open_outcomes_amended (q : ℕ) (hm : HashModel q) (pk : PublicKey q)
    (smk : SecretManagerKey q) (M : String) (sig : Signature q)
    (users : List (User q)) :
    (Verify.Verify q hm pk M sig = false →
      Open.Open q hm pk smk M sig users =
        GoResult.err "signature verification failed") ∧
    (Verify.Verify q hm pk M sig = true →
      Open.searchUser q (Open.RecoverUserPrivateKey q smk sig) users = none →
      Open.Open q hm pk smk M sig users =
        GoResult.err "no matching user found for the recovered public key") := by
  constructor
  · intro hv
    simp [Open.Open, hv]
  · intro hv hs
    simp [Open.Open, hv, hs]

/-- Witness for C8: the rejected signature `sigBad` takes the first branch;
the honest signature opened against an empty user table takes the second. -/
theorem c8_open_outcomes_amended_witness :
    Open.Open 7 hmC resA.publicKey resA.secretManagerKey "m" sigBad resA.users
      = GoResult.err "signature verification failed" ∧
    Open.Open 7 hmC resA.publicKey resA.secretManagerKey "m"
      (Sign.Sign 7 hmC resA.publicKey { A := 5, X := 1 } "m" srndA) []
      = GoResult.err "no matching user found for the recovered public key" :=
  ⟨(c8_open_outcomes_amended 7 hmC resA.publicKey resA.secretManagerKey "m"
      sigBad resA.users).1 (by decide),
    (c8_open_outcomes_amended 7 hmC resA.publicKey resA.secretManagerKey "m"
      (Sign.Sign 7 hmC resA.publicKey { A := 5, X := 1 } "m" srndA) []).2
      (by decide) (by decide)⟩

/-- C8 counterexample: on a signature Verify rejects, Open returns the error
outcome `GoResult.err "signature verification failed"` (a non-nil Go error),
not a normal no-signer result with reason "invalid signature" as the claim
states. -/
theorem c8_open_outcomes_counterexample :
    Verify.Verify 7 hmC resA.publicKey "m" sigBad = false ∧
    Open.Open 7 hmC resA.publicKey resA.secretManagerKey "m" sigBad resA.users
      = GoResult.err "signature verification failed" := by decide

/-- C2 counterexample: on the duplicate-credential KeyGen output `resDup`,
user 1 signs, Verify accepts, but the linear search stops at the first
matching index and Open returns 0, not 1. -/
theorem c2_open_identifies_signer_counterexample :
    Keygen.KeyGen 7 hmC 2 rndDup = GoResult.ok resDup ∧
    Open.Open 7 hmC resDup.publicKey resDup.secretManagerKey "m"
      (Sign.Sign 7 hmC resDup.publicKey (resDup.users.get ⟨1, by decide⟩) "m"
        srndA) resDup.users = GoResult.ok 0 ∧
    ¬ (Open.Open 7 hmC resDup.publicKey resDup.secretManagerKey "m"
      (Sign.Sign 7 hmC resDup.publicKey (resDup.users.get ⟨1, by decide⟩) "m"
        srndA) resDup.users = GoResult.ok 1) := by decide

/-- C9 (amended): utils.RandomG1Element hashes its 48-byte fresh random buffer
to G1 under the fixed domain separation tag "domain-separation-tag" and
returns the hash output unconditionally -- it contains no identity rejection.
Only the older scalar-multiplication draft randomG1Element rejects the
identity: whenever it returns an element, that element is not the identity. -/
theorem c9_random_g1_amended (q : ℕ) (hm : HashModel q) (f : Fin 48 → ℕ)
    (scalars : List (Scalar q)) (h0 : G1e q) :
    Utils.RandomG1Element q hm f =
      hm.hashG1 (Utils.randBuf48 f) "domain-separation-tag" ∧
    (Utils.randBuf48 f).length = 48 ∧
    (Utils.randomG1ElementOld q scalars = some h0 → h0 ≠ 0) := by
  refine ⟨rfl, by simp [Utils.randBuf48], ?_⟩
  induction scalars with
  | nil => intro hsome; simp [Utils.randomG1ElementOld] at hsome
  | cons s rest ih =>
    intro hsome
    unfold Utils.randomG1ElementOld at hsome
    by_cases hz : s * (1 : G1e q) = 0
    · simp only [hz, if_true] at hsome
      exact ih hsome
    · simp only [hz, if_false] at hsome
      rw [← Option.some_inj.mp hsome]
      exact hz

/-- Witness for C9 at q = 7, with the identity-freeness of the old draft
instantiated on the scalar stream [3]. -/
theorem c9_random_g1_amended_witness :
    Utils.RandomG1Element 7 hmC (fun _ => 1) =
      hmC.hashG1 (Utils.randBuf48 (fun _ => 1)) "domain-separation-tag" ∧
    (Utils.randBuf48 (fun _ => 1)).length = 48 ∧
    (3 : G1e 7) ≠ 0 :=
  ⟨(c9_random_g1_amended 7 hmC (fun _ => 1) [3] 3).1,
    (c9_random_g1_amended 7 hmC (fun _ => 1) [3] 3).2.1,
    (c9_random_g1_amended 7 hmC (fun _ => 1) [3] 3).2.2 (by decide)⟩

/-- C9 counterexample: RandomG1Element returns whatever hash-to-G1 produces;
when the hash output is the identity, the function returns the identity --
there is no rejection-and-resample step, contrary to the claim. -/
theorem c9_random_g1_counterexample :
    Utils.RandomG1Element 7 hmIdent (fun _ => 1) = 0 := by decide

/-- C10: Verify is read-only on its inputs and deterministic: the
mutation-explicit retranslation returns every cell of the signature and of
the public key unchanged, and its boolean result is exactly the pure Verify
result -- so the caller's signature can be verified repeatedly with the same
outcome. -/
theorem c10_verify_preserves_inputs (q : ℕ) (hm : HashModel q)
    (pk : PublicKey q) (M : String) (sig : Signature q) :
    VerifyCells.VerifyCells q hm pk M sig = (Verify.Verify q hm pk M sig, pk, sig) :=
  rfl

